import Mathlib

/-!
Verification development for the room-scanner asset-delivery subsystem.

The definitions below are a shallow embedding of the JavaScript source:
each definition is translated from a named function of the repository
(src/js/dependencyLoader.js, src/js/unifiedLoader.js, src/js/assetManager.js,
src/js/models.js, src/sw.js).  Network and host-environment effects
(fetch outcomes, the DOM script loader, browser URL resolution, wall-clock
time) are passed in explicitly as parameters, so every definition is an
executable pure function.
-/

namespace RoomScanner

/-! ## String helpers

Boolean substring test, modelling the JavaScript method String.prototype.includes
used by the validator (dependencyLoader) and the service-worker cache cleanup. -/

/-- Substring test on character lists: does the haystack contain the needle
as a contiguous run. -/
def hasSubList (needle : List Char) : List Char → Bool
  | [] => needle.isEmpty
  | c :: rest => needle.isPrefixOf (c :: rest) || hasSubList needle rest

/-- Substring test on strings, modelling url.includes(needle) in JavaScript. -/
def hasSub (needle hay : String) : Bool :=
  hasSubList needle.data hay.data

/-- Prefix test on strings, modelling url.startsWith(prefix) in JavaScript
(defined over the character lists so that it evaluates by reduction). -/
def strIsPrefix (p s : String) : Bool :=
  p.data.isPrefixOf s.data

/-- Drop the first n characters of a string. -/
def strDrop (s : String) (n : Nat) : String :=
  ⟨s.data.drop n⟩

/-- Longest prefix of a string whose characters satisfy f. -/
def strTakeWhile (s : String) (f : Char → Bool) : String :=
  ⟨s.data.takeWhile f⟩

/-! ## DependencyLoader (src/js/dependencyLoader.js, src/unnamed/part_002)

State of one DependencyLoader instance.  The JavaScript class keeps a
loadingPromises map and a loadedDependencies set; the only key ever used is
"onnxruntime", so the map is modelled as an Option holding the pending
promise identifier and the set as a Bool.  The startedLoads field logs the
promise identifier of every internal candidate-fallback download sequence
that was started, so that deduplication is observable. -/

structure DLState where
  loading : Option Nat
  loaded : Bool
  nextId : Nat
  startedLoads : List Nat
deriving Repr, DecidableEq

/-- Reply a caller of loadOnnxRuntime receives synchronously: either the
(possibly freshly created) pending promise it will await, or the cached
result returned immediately. -/
inductive LoadReply where
  | pending (id : Nat)
  | cached
deriving Repr, DecidableEq

/-- Embedding of DependencyLoader.loadOnnxRuntime (the synchronous prefix up
to the first await, which in the single-threaded JavaScript event loop runs
atomically): return the cached promise if one is in flight; return the
cached result if already loaded and the global ort object is available;
otherwise create a fresh promise, record it in the single-flight map and
start the internal candidate-fallback sequence.  The ortAvailable flag
models typeof ort !== "undefined". -/
def loadOnnxRuntime (ortAvailable : Bool) (s : DLState) : DLState × LoadReply :=
  match s.loading with
  | some p => (s, LoadReply.pending p)
  | none =>
    if s.loaded && ortAvailable then
      (s, LoadReply.cached)
    else
      let p := s.nextId
      (⟨some p, s.loaded, p + 1, s.startedLoads ++ [p]⟩, LoadReply.pending p)

/-- Settlement of the in-flight promise (the await/finally part of
loadOnnxRuntime): the ticket is removed from the map; on success the
dependency is marked loaded. -/
def settleLoad (success : Bool) (s : DLState) : DLState :=
  ⟨none, s.loaded || success, s.nextId, s.startedLoads⟩

/-- N overlapping calls to loadOnnxRuntime with no settlement in between
(the callers all arrive while the first load is still in flight). -/
def runCalls (ortAvailable : Bool) : Nat → DLState → DLState × List LoadReply
  | 0, s => (s, [])
  | n + 1, s =>
    let r := loadOnnxRuntime ortAvailable s
    let rest := runCalls ortAvailable n r.1
    (rest.1, r.2 :: rest.2)

/-! ## Candidate fallback (DependencyLoader._loadOnnxRuntimeInternal) -/

/-- One source candidate of the fallback chain. -/
structure Strategy where
  name : String
  url : String
  source : String
deriving Repr, DecidableEq

/-- The configured candidate list of _loadOnnxRuntimeInternal: CDN primary,
then CDN fallback, then the bundled local copy. -/
def onnxStrategies : List Strategy :=
  [⟨"CDN Primary", "https://cdn.jsdelivr.net/npm/onnxruntime-web@1.18.0/dist/ort.min.js",
    "CDN-Primary"⟩,
   ⟨"CDN Fallback", "https://unpkg.com/onnxruntime-web@1.18.0/dist/ort.min.js",
    "CDN-Fallback"⟩,
   ⟨"Local Fallback", "./lib/ort.min.js", "Local"⟩]

/-- The for-loop of _loadOnnxRuntimeInternal over a candidate list: try each
candidate in order; ok models whether _loadScript plus _verifyOnnxRuntime
succeed for that candidate.  Returns the log of attempted candidates and
the successful candidate, none meaning every candidate failed and the
aggregate failure is thrown. -/
def runStrategies (ok : Strategy → Bool) : List Strategy → List Strategy × Option Strategy
  | [] => ([], none)
  | st :: rest =>
    if ok st then ([st], some st)
    else
      let r := runStrategies ok rest
      (st :: r.1, r.2)

/-- Embedding of DependencyLoader._loadOnnxRuntimeInternal: run the fallback
loop over the configured strategies. -/
def loadOnnxRuntimeInternal (ok : Strategy → Bool) : List Strategy × Option Strategy :=
  runStrategies ok onnxStrategies

/-! ## Integrity validator (DependencyLoader._validateScriptUrl, src/unnamed/part_002)

The source calls new URL(url, window.location.origin).  That constructor is
a host-environment API, modelled here restricted to the URL forms the loader
uses: absolute http or https URLs (parsed into protocol, hostname and
origin), any other scheme-qualified URL (unparsed, rejected), and relative
URLs (resolved against the base origin). -/

structure UrlObj where
  protocol : String
  hostname : String
  origin : String
deriving Repr, DecidableEq

/-- Model of browser URL resolution new URL(url, baseOrigin), restricted to
the forms relevant here.  An absolute https or http URL with an empty host
does not parse (the constructor throws); a relative URL resolves to the
base origin. -/
def parseUrl (baseOrigin url : String) : Option UrlObj :=
  if strIsPrefix "https://" url then
    let hostPort := strTakeWhile (strDrop url 8) (fun c => c != '/')
    if hostPort.data.isEmpty then none
    else some ⟨"https:", strTakeWhile hostPort (fun c => c != ':'), "https://" ++ hostPort⟩
  else if strIsPrefix "http://" url then
    let hostPort := strTakeWhile (strDrop url 7) (fun c => c != '/')
    if hostPort.data.isEmpty then none
    else some ⟨"http:", strTakeWhile hostPort (fun c => c != ':'), "http://" ++ hostPort⟩
  else if hasSub "://" url then none
  else some ⟨"", "", baseOrigin⟩

/-- The fixed CDN allow-list of _validateScriptUrl. -/
def allowedCDNs : List String := ["cdn.jsdelivr.net", "unpkg.com"]

/-- Embedding of DependencyLoader._validateScriptUrl: same-origin URLs are
allowed unless they contain a path-traversal sequence; cross-origin URLs are
allowed only over https from an allow-listed host; a URL the constructor
rejects is refused. -/
def validateScriptUrl (baseOrigin url : String) : Bool :=
  match parseUrl baseOrigin url with
  | none => false
  | some u =>
    if u.origin == baseOrigin then
      !(hasSub "../" url || hasSub "..\\" url)
    else
      u.protocol == "https:" && allowedCDNs.contains u.hostname

/-! ## Progress aggregator (UnifiedAssetLoader.updateProgress, src/js/unifiedLoader.js)

Constants from src/js/constants.js. -/

def progressThrottleMs : Nat := 100

def progressMax : ℚ := 100

def onnxRuntimeProgressWeight : ℚ := 20

def modelProgressWeight : ℚ := 80

/-- The per-instance mutable fields of UnifiedAssetLoader that updateProgress
reads and writes.  The progress callback is modelled as always set (the
claims are about what the subscriber observes); the delivered update is the
second component of the result, none when the throttle drops it. -/
structure UPState where
  lastProgressUpdate : Nat
  currentStep : ℚ
deriving Repr, DecidableEq

/-- Embedding of UnifiedAssetLoader.updateProgress: drop the update when
less than progressThrottleMs has elapsed since the last delivered update;
otherwise compute the weighted global value (onnx phase 0-20, model phase
20-100, any other stage 0), clamp it above by progressMax, store it and
deliver it together with the message. -/
def updateProgress (s : UPState) (now : Nat) (localProgress : ℚ)
    (stage message : String) : UPState × Option (ℚ × String) :=
  if now - s.lastProgressUpdate < progressThrottleMs then (s, none)
  else
    let totalProgress : ℚ :=
      if stage == "onnx" then
        localProgress * onnxRuntimeProgressWeight / progressMax
      else if stage == "model" then
        onnxRuntimeProgressWeight + localProgress * modelProgressWeight / progressMax
      else 0
    let step := min progressMax totalProgress
    (⟨now, step⟩, some (step, message))

/-! ## AssetManager (src/js/assetManager.js) -/

def maxCacheAge : Nat := 300000

/-- One entry of the AssetManager loadAttempts map.  The error-message field
of failed attempts is not needed by any claim and is omitted. -/
structure AMAttempt where
  url : String
  source : String
  success : Bool
  timestamp : Nat
deriving Repr, DecidableEq

/-- The loadAttempts map, as an insertion-ordered association list. -/
def AttemptMap := List (String × AMAttempt)

/-- Map.set semantics: replace the value of an existing key in place,
otherwise append. -/
def setAttempt : List (String × AMAttempt) → String → AMAttempt → List (String × AMAttempt)
  | [], k, a => [(k, a)]
  | (k0, a0) :: rest, k, a =>
    if k0 == k then (k, a) :: rest else (k0, a0) :: setAttempt rest k a

/-- CDN base URLs per asset type (AssetManager constructor, cdnConfig.baseUrls).
An unknown asset type yields the JavaScript string coercion of undefined. -/
def cdnBaseUrl (assetType : String) : String :=
  if assetType == "models" then "https://example-cdn.com/models/"
  else if assetType == "onnxRuntime" then
    "https://cdn.jsdelivr.net/npm/onnxruntime-web@1.18.0/dist/"
  else "undefined"

/-- Local fallback base URLs per asset type (cdnConfig.fallbackUrls). -/
def localBaseUrl (assetType : String) : String :=
  if assetType == "models" then "./models/"
  else if assetType == "onnxRuntime" then "./lib/"
  else "undefined"

/-- Embedding of AssetManager.getAssetUrls: CDN URL first, local URL second,
collapsed to one entry when the two coincide. -/
def getAssetUrls (assetType filename : String) : List String :=
  let cdnUrl := cdnBaseUrl assetType ++ filename
  let localUrl := localBaseUrl assetType ++ filename
  if cdnUrl == localUrl then [localUrl] else [cdnUrl, localUrl]

/-- The for-loop of AssetManager.loadAsset over the candidate URLs (the path
without the downloadWithProgress option): a local URL (starting with ./ or /)
is recorded successful and returned without any network operation; a remote
URL is verified through verifyAssetAvailabilityLegacy, whose success or
thrown failure is modelled by the env oracle; on failure the attempt is
recorded failed and the loop advances.  Returns the updated attempt map, the
result (none meaning the final throw), and the list of URLs on which a
network operation was attempted. -/
def loadAssetLoop (env : String → Bool) (now : Nat) (key : String) :
    List (String × AMAttempt) → List String → Nat →
    List (String × AMAttempt) × Option String × List String
  | attempts, [], _ => (attempts, none, [])
  | attempts, url :: rest, i =>
    let source := if i == 0 then "CDN" else "Local"
    if strIsPrefix "./" url || strIsPrefix "/" url then
      (setAttempt attempts key ⟨url, source, true, now⟩, some url, [])
    else if env url then
      (setAttempt attempts key ⟨url, source, true, now⟩, some url, [url])
    else
      let attempts2 := setAttempt attempts key ⟨url, source, false, now⟩
      let r := loadAssetLoop env now key attempts2 rest (i + 1)
      (r.1, r.2.1, url :: r.2.2)

/-- Embedding of AssetManager.loadAsset (without the downloadWithProgress
option): return the recorded URL when a successful attempt for the key is
on record, otherwise run the candidate fallback loop. -/
def loadAsset (env : String → Bool) (now : Nat) (attempts : List (String × AMAttempt))
    (assetType filename : String) :
    List (String × AMAttempt) × Option String × List String :=
  let attemptKey := assetType ++ ":" ++ filename
  match attempts.lookup attemptKey with
  | some a =>
    if a.success then (attempts, some a.url, [])
    else loadAssetLoop env now attemptKey attempts (getAssetUrls assetType filename) 0
  | none => loadAssetLoop env now attemptKey attempts (getAssetUrls assetType filename) 0

/-- Embedding of AssetManager.cleanupOldAttempts: delete every attempt,
successful or not, whose age exceeds maxCacheAge. -/
def cleanupOldAttempts (now : Nat) (attempts : List (String × AMAttempt)) :
    List (String × AMAttempt) :=
  attempts.filter (fun p => !(maxCacheAge < now - p.2.timestamp))

/-! ## Size tolerance (AssetManager.verifyAssetAvailabilityLegacy, lines 352-367)

The post-fetch size validation of verifyAssetAvailabilityLegacy, given the
content length observed on the response.  JavaScript truthiness makes an
expectedSize of 0 behave as unsupplied and a sizeTolerance of 0 fall back to
the 0.1 default.  The logged warning text (with its rounded percentage) is
not modelled; an Except.error is the thrown failure. -/
def verifyLegacySizeCheck (url : String) (expectedSize : Option Nat)
    (sizeTolerance : Option ℚ) (contentLength : Nat) : Except String Unit :=
  match expectedSize with
  | none => Except.ok ()
  | some e =>
    if e = 0 then Except.ok ()
    else
      let tolerance : ℚ :=
        match sizeTolerance with
        | some t => if t = 0 then 1 / 10 else t
        | none => 1 / 10
      if 0 < contentLength then
        let sizeDiff : ℚ := |(contentLength : ℚ) - (e : ℚ)| / (e : ℚ)
        if tolerance < sizeDiff then
          if !(strIsPrefix "./" url) then
            Except.error ("Size mismatch: expected ~" ++ toString e ++ ", got "
              ++ toString contentLength)
          else Except.ok ()
        else Except.ok ()
      else Except.ok ()

/-! ## ModelManager (src/js/models.js) -/

/-- One row of the RES_TO_MODEL configuration table. -/
structure ModelCfg where
  resolution : Nat × Nat
  filename : String
  expectedSize : Nat
  priority : String
deriving Repr, DecidableEq

/-- The RES_TO_MODEL table of the ModelManager constructor. -/
def RES_TO_MODEL : List ModelCfg :=
  [⟨(256, 256), "yolov10n.onnx", 9309375, "high"⟩,
   ⟨(256, 256), "yolov7-tiny_256x256.onnx", 24943827, "high"⟩,
   ⟨(320, 320), "yolov7-tiny_320x320.onnx", 24949875, "medium"⟩,
   ⟨(640, 640), "yolov7-tiny_640x640.onnx", 25000320, "low"⟩]

/-- Row of RES_TO_MODEL at an index (getCurrentModelConfig). -/
def getModelCfg (i : Nat) : ModelCfg :=
  RES_TO_MODEL.getD i ⟨(0, 0), "", 0, ""⟩

/-- The scanning loop of findSmallestAvailableModel: walk the remaining rows
keeping the index and size of the smallest row seen so far (strict
comparison, so the earliest minimum wins). -/
def findSmallestAux : Nat → List ModelCfg → Nat → Nat → Nat
  | _, [], sIdx, _ => sIdx
  | i, c :: rest, sIdx, sSize =>
    if c.expectedSize < sSize then findSmallestAux (i + 1) rest i c.expectedSize
    else findSmallestAux (i + 1) rest sIdx sSize

/-- Embedding of ModelManager.findSmallestAvailableModel. -/
def findSmallestAvailableModel : Nat :=
  findSmallestAux 1 (RES_TO_MODEL.drop 1) 0 (getModelCfg 0).expectedSize

/-- The ModelManager fields read and written by loadCurrentModel and
attemptFallbackLoading.  loadedModels holds the filenames of cached
sessions. -/
structure MMState where
  currentModelIndex : Nat
  fallbackAttempted : Bool
  loadedModels : List String
deriving Repr, DecidableEq

/-- Well-founded measure for the loadCurrentModel and attemptFallbackLoading
recursion: once fallbackAttempted is set the recursion cannot re-enter the
fallback branch. -/
def mmFuel (st : MMState) : Nat :=
  if st.fallbackAttempted then 1 else 3

/-- The fatal error message surfaced when the model-tier fallback is
exhausted. -/
def fatalModelError : String :=
  "Unable to load any YOLO models. Please check your internet connection and try again."

mutual

/-- Embedding of ModelManager.loadCurrentModel.  env models whether
assetManager.loadAsset followed by ort.InferenceSession.create succeeds for
a given model filename.  Returns the updated state, the result (the loaded
filename, or the error thrown), and the list of filenames on which a load
was attempted. -/
def loadCurrentModel (env : String → Bool) (st : MMState) :
    MMState × Except String String × List String :=
  let cfg := getModelCfg st.currentModelIndex
  if st.loadedModels.contains cfg.filename then
    (st, Except.ok cfg.filename, [])
  else if env cfg.filename then
    ({ st with loadedModels := st.loadedModels ++ [cfg.filename] },
      Except.ok cfg.filename, [cfg.filename])
  else
    if h : st.fallbackAttempted = false then
      let r := attemptFallbackLoading env st
      (r.1, r.2.1, cfg.filename :: r.2.2)
    else
      (st, Except.error ("Failed to load model " ++ cfg.filename), [cfg.filename])
termination_by mmFuel st
decreasing_by simp [mmFuel, h]

/-- Embedding of ModelManager.attemptFallbackLoading: mark the fallback as
consumed, switch to the smallest model variant when it differs from the
current one and retry the full load once; on retry failure restore the
original index; in every failing case the surfaced error is the fatal
unable-to-load message. -/
def attemptFallbackLoading (env : String → Bool) (st : MMState) :
    MMState × Except String String × List String :=
  let st1 := { st with fallbackAttempted := true }
  let smallestIdx := findSmallestAvailableModel
  if smallestIdx ≠ st1.currentModelIndex then
    let originalIndex := st1.currentModelIndex
    let st2 := { st1 with currentModelIndex := smallestIdx }
    match loadCurrentModel env st2 with
    | (st3, Except.ok f, log) => (st3, Except.ok f, log)
    | (st3, Except.error _, log) =>
      ({ st3 with currentModelIndex := originalIndex }, Except.error fatalModelError, log)
  else
    (st1, Except.error fatalModelError, [])
termination_by 2
decreasing_by simp [mmFuel]

end

/-! ## Service worker cache generations (src/sw.js) -/

def CACHE_VERSION : String := "v1.2.0"

def STATIC_CACHE : String := "static-" ++ CACHE_VERSION

def MODELS_CACHE : String := "models-" ++ CACHE_VERSION

def RUNTIME_CACHE : String := "runtime-" ++ CACHE_VERSION

/-- The cache-name cleanup of the activate event listener: a cache name
containing static- that is not the current static cache, or containing
models- that is not the current models cache, is deleted; every other cache
name survives. -/
def activateCleanup (cacheNames : List String) : List String :=
  cacheNames.filter (fun n =>
    !(hasSub "static-" n && n != STATIC_CACHE)
      && !(hasSub "models-" n && n != MODELS_CACHE))

/-- The browser CacheStorage, as an association list from cache name to the
entries (request URL to response body) of that cache. -/
def CacheStorage := List (String × List (String × String))

/-- caches.open followed by cache.match: look a URL up in one named cache. -/
def cacheMatch (storage : List (String × List (String × String)))
    (cacheName url : String) : Option String :=
  match storage.lookup cacheName with
  | none => none
  | some entries => entries.lookup url

/-- cache.put into a named cache, creating the cache when absent and
replacing an existing entry for the URL. -/
def cachePut : List (String × List (String × String)) → String → String → String →
    List (String × List (String × String))
  | [], cacheName, url, body => [(cacheName, [(url, body)])]
  | (n, entries) :: rest, cacheName, url, body =>
    if n == cacheName then
      (n, (url, body) :: entries.filter (fun e => e.1 != url)) :: rest
    else
      (n, entries) :: cachePut rest cacheName url body

/-- Embedding of handleModelRequest in src/sw.js: consult the current
models cache first; on a miss fetch from the network (net models fetch,
none meaning a thrown network failure) and cache a successful response. -/
def handleModelRequest (storage : List (String × List (String × String)))
    (net : String → Option String) (url : String) :
    Option String × List (String × List (String × String)) :=
  match cacheMatch storage MODELS_CACHE url with
  | some body => (some body, storage)
  | none =>
    match net url with
    | some body => (some body, cachePut storage MODELS_CACHE url body)
    | none => (none, storage)

/-! ## Theorems -/

/-- A call arriving while a load is in flight returns the pending promise and
changes nothing, for any number of such calls. -/
theorem runCalls_inflight (orta : Bool) (m : Nat) (s : DLState) (p : Nat)
    (h : s.loading = some p) :
    runCalls orta m s = (s, List.replicate m (LoadReply.pending p)) := by
  induction m with
  | zero => simp [runCalls]
  | succ k ih =>
    simp [runCalls, loadOnnxRuntime, h, ih, List.replicate_succ]

/-- C1: Single-flight deduplication.  From an idle, not-yet-loaded state, any
number n of overlapping loadOnnxRuntime calls (no settlement in between)
all receive the same pending promise, and exactly one internal
candidate-fallback download sequence is started. -/
theorem claim_single_flight (orta : Bool) (s : DLState) (n : Nat)
    (hload : s.loading = none) (hl : s.loaded = false) (hn : 1 ≤ n) :
    (runCalls orta n s).2 = List.replicate n (LoadReply.pending s.nextId) ∧
    (runCalls orta n s).1.startedLoads = s.startedLoads ++ [s.nextId] ∧
    (runCalls orta n s).1.loading = some s.nextId := by
  match n, hn with
  | Nat.succ k, _ =>
    have hstep : loadOnnxRuntime orta s =
        (⟨some s.nextId, s.loaded, s.nextId + 1, s.startedLoads ++ [s.nextId]⟩,
          LoadReply.pending s.nextId) := by
      simp [loadOnnxRuntime, hload, hl]
    have hrest := runCalls_inflight orta k
      ⟨some s.nextId, s.loaded, s.nextId + 1, s.startedLoads ++ [s.nextId]⟩ s.nextId rfl
    simp [runCalls, hstep, hrest, List.replicate_succ]

/-- Witness for C1: three overlapping calls from a fresh loader state share
promise 0 and start exactly one download sequence. -/
theorem claim_single_flight_witness :
    (runCalls true 3 ⟨none, false, 0, []⟩).2 =
      List.replicate 3 (LoadReply.pending 0) ∧
    (runCalls true 3 ⟨none, false, 0, []⟩).1.startedLoads = [] ++ [0] ∧
    (runCalls true 3 ⟨none, false, 0, []⟩).1.loading = some 0 :=
  claim_single_flight true ⟨none, false, 0, []⟩ 3 rfl rfl (by decide)

/-- The fallback loop returns the first candidate accepted by ok. -/
theorem runStrategies_find (ok : Strategy → Bool) (l : List Strategy) :
    (runStrategies ok l).2 = l.find? ok := by
  induction l with
  | nil => rfl
  | cons a t ih =>
    by_cases h : ok a
    · simp [runStrategies, h, List.find?_cons_of_pos]
    · simp [runStrategies, h, List.find?_cons_of_neg, ih]

/-- The fallback loop attempts exactly the candidates up to and including
the first success, in configured order, and all of them when every
candidate fails. -/
theorem runStrategies_log (ok : Strategy → Bool) (l : List Strategy) :
    (runStrategies ok l).1 =
      (match l.find? ok with
       | some st => l.takeWhile (fun x => !ok x) ++ [st]
       | none => l) := by
  induction l with
  | nil => rfl
  | cons a t ih =>
    by_cases h : ok a
    · simp [runStrategies, h, List.find?_cons_of_pos, List.takeWhile_cons, ih]
    · cases hf : t.find? ok with
      | none =>
        simp [runStrategies, h, List.find?_cons_of_neg, List.takeWhile_cons, ih, hf]
      | some st =>
        simp [runStrategies, h, List.find?_cons_of_neg, List.takeWhile_cons, ih, hf]

/-- C2: Fallback order.  The loader attempts the configured candidates
strictly in order (CDN primary, CDN fallback, local), advancing only past
failing candidates: the attempt log is exactly the prefix of the configured
list up to and including the first successful candidate, the returned
candidate is the first that succeeds, and the aggregate failure (result
none) is thrown exactly when every candidate fails. -/
theorem claim_fallback_order (ok : Strategy → Bool) :
    (loadOnnxRuntimeInternal ok).2 = onnxStrategies.find? ok ∧
    (loadOnnxRuntimeInternal ok).1 =
      (match onnxStrategies.find? ok with
       | some st => onnxStrategies.takeWhile (fun x => !ok x) ++ [st]
       | none => onnxStrategies) ∧
    ((loadOnnxRuntimeInternal ok).2 = none ↔ ∀ st ∈ onnxStrategies, ok st = false) := by
  refine ⟨runStrategies_find ok onnxStrategies, runStrategies_log ok onnxStrategies, ?_⟩
  rw [show (loadOnnxRuntimeInternal ok).2 = onnxStrategies.find? ok from
    runStrategies_find ok onnxStrategies]
  simp [List.find?_eq_none]

/-- C4: Integrity validation is a pure predicate on the URL string: a
same-origin URL is accepted exactly when it contains no path-traversal
sequence, a cross-origin URL exactly when its scheme is https and its host
is cdn.jsdelivr.net or unpkg.com; an unparsable URL is rejected; in
particular the traversal URL is rejected for every base origin, and the
evil.example URL is rejected whenever evil.example is not the base origin
itself (it is never in the allow-list). -/
theorem claim_integrity_validation :
    (∀ baseOrigin url u, parseUrl baseOrigin url = some u →
      (validateScriptUrl baseOrigin url = true ↔
        ((u.origin = baseOrigin ∧ hasSub "../" url = false ∧ hasSub "..\\" url = false) ∨
         (u.origin ≠ baseOrigin ∧ u.protocol = "https:" ∧
           (u.hostname = "cdn.jsdelivr.net" ∨ u.hostname = "unpkg.com"))))) ∧
    (∀ baseOrigin url, parseUrl baseOrigin url = none →
      validateScriptUrl baseOrigin url = false) ∧
    (∀ baseOrigin, validateScriptUrl baseOrigin "./../../etc/passwd" = false) ∧
    (∀ baseOrigin, baseOrigin ≠ "https://evil.example" →
      validateScriptUrl baseOrigin "https://evil.example/x.js" = false) := by
  refine ⟨?_, ?_, ?_, ?_⟩
  · intro b url u hp
    have hc : ∀ x : String, x ∈ allowedCDNs ↔
        (x = "cdn.jsdelivr.net" ∨ x = "unpkg.com") := by
      intro x
      simp [allowedCDNs]
    simp only [validateScriptUrl, hp]
    by_cases h : u.origin = b
    · simp [h]
    · simp [h, Bool.and_eq_true, beq_iff_eq, hc]
  · intro b url hp
    simp only [validateScriptUrl, hp]
  · intro b
    have hp : parseUrl b "./../../etc/passwd" = some ⟨"", "", b⟩ := rfl
    simp only [validateScriptUrl, hp]
    simp [show hasSub "../" "./../../etc/passwd" = true from by decide]
  · intro b hb
    have hp : parseUrl b "https://evil.example/x.js" =
        some ⟨"https:", "evil.example", "https://evil.example"⟩ := rfl
    simp only [validateScriptUrl, hp]
    have hne : (("https://evil.example" : String) == b) = false := by
      simp [Ne.symm hb]
    simp [hne, allowedCDNs]

/-- Witness for C4: with base origin https://app.example the evil.example
URL is rejected. -/
theorem claim_integrity_validation_witness :
    validateScriptUrl "https://app.example" "https://evil.example/x.js" = false :=
  claim_integrity_validation.2.2.2 "https://app.example" (by decide)

/-- C3 counterexample: the aggregator does not clamp to the previous
maximum.  After a delivered global value of 60 (model phase at 50 percent),
a retry restarting the model phase at 5 percent delivers 24, which the
subscriber observes as progress moving backward. -/
theorem claim_progress_monotonic_counterexample :
    (updateProgress ⟨0, 0⟩ 1000 50 "model" "m").1 = ⟨1000, 60⟩ ∧
    (updateProgress ⟨0, 0⟩ 1000 50 "model" "m").2 = some (60, "m") ∧
    (updateProgress ⟨1000, 60⟩ 2000 5 "model" "m").2 = some (24, "m") ∧
    (24 : ℚ) < 60 := by
  refine ⟨?_, ?_, ?_, by norm_num⟩ <;>
    norm_num [updateProgress, progressThrottleMs, progressMax,
      onnxRuntimeProgressWeight, modelProgressWeight, min_def,
      show ("model" : String) ≠ "onnx" from by decide]

/-- C3 amended: within one load session every value delivered by
updateProgress lies in the interval [0, 100] (given phase-local progress
inputs in [0, 100]); the delivered sequence is however not clamped to the
previous maximum and may decrease when a phase restarts. -/
theorem claim_progress_bounds (s : UPState) (now : Nat) (lp : ℚ)
    (stage msg : String) (d : ℚ) (m : String)
    (h0 : 0 ≤ lp) (h1 : lp ≤ 100)
    (hd : (updateProgress s now lp stage msg).2 = some (d, m)) :
    0 ≤ d ∧ d ≤ 100 := by
  unfold updateProgress at hd
  split at hd
  · exact absurd hd (by simp)
  · simp only [Option.some.injEq, Prod.mk.injEq] at hd
    obtain ⟨hd1, -⟩ := hd
    subst hd1
    refine ⟨le_min (by norm_num [progressMax]) ?_, ?_⟩
    · split
      · exact div_nonneg (mul_nonneg h0 (by norm_num [onnxRuntimeProgressWeight]))
          (by norm_num [progressMax])
      · split
        · have hx : 0 ≤ lp * modelProgressWeight / progressMax :=
            div_nonneg (mul_nonneg h0 (by norm_num [modelProgressWeight]))
              (by norm_num [progressMax])
          have hy : (0 : ℚ) ≤ onnxRuntimeProgressWeight := by
            norm_num [onnxRuntimeProgressWeight]
          linarith
        · exact le_refl 0
    · simpa [progressMax] using min_le_left progressMax
        (if stage == "onnx" then lp * onnxRuntimeProgressWeight / progressMax
         else if stage == "model" then
           onnxRuntimeProgressWeight + lp * modelProgressWeight / progressMax
         else 0)

/-- C3 witness: at a concrete delivered update (model phase at 50 percent,
delivered value 60) the bounds hold. -/
theorem claim_progress_bounds_witness : (0 : ℚ) ≤ 60 ∧ (60 : ℚ) ≤ 100 :=
  claim_progress_bounds ⟨0, 0⟩ 1000 50 "model" "m" 60 "m"
    (by norm_num) (by norm_num)
    (by norm_num [updateProgress, progressThrottleMs, progressMax,
      onnxRuntimeProgressWeight, modelProgressWeight, min_def,
      show ("model" : String) ≠ "onnx" from by decide])

/-- C8 counterexample: the throttle is purely time based.  With the last
delivery at time 1000 (value 95), the final update at time 1050 computing
the global value 100 with a changed status message is silently dropped,
even though the rounded percentage changed, the message changed and it is
the final 100 percent update of the session. -/
theorem claim_throttle_conditions_counterexample :
    (updateProgress ⟨1000, 95⟩ 1050 100 "model" "Model ready for loading").2 = none ∧
    min progressMax (onnxRuntimeProgressWeight + 100 * modelProgressWeight / progressMax)
      = 100 := by
  constructor <;>
    norm_num [updateProgress, progressThrottleMs, progressMax,
      onnxRuntimeProgressWeight, modelProgressWeight, min_def,
      show ("model" : String) ≠ "onnx" from by decide]

/-- C8 amended: an update is delivered exactly when at least
progressThrottleMs (100 ms) has elapsed since the last delivered update; a
changed rounded percentage or status message does not bypass the throttle,
so the final 100 percent update can be dropped. -/
theorem claim_throttle_time_only (s : UPState) (now : Nat) (lp : ℚ)
    (stage msg : String) :
    (updateProgress s now lp stage msg).2 = none ↔
      now - s.lastProgressUpdate < progressThrottleMs := by
  unfold updateProgress
  split
  · simp_all
  · simp_all

/-- C5 counterexample: recorded success is not durable for the whole process
session.  A loadAsset call at time 0 succeeds over the network and records
the success; the periodic cleanup at time 360000 (six minutes later) deletes
the successful attempt because its age exceeds maxCacheAge; the next
loadAsset call for the same key then re-attempts the network fetch (its
network log is nonempty) instead of returning the recorded result without
fetching. -/
theorem claim_success_durable_counterexample :
    (loadAsset (fun _ => true) 0 [] "models" "yolov10n.onnx").1 =
      [("models:yolov10n.onnx",
        ⟨"https://example-cdn.com/models/yolov10n.onnx", "CDN", true, 0⟩)] ∧
    (loadAsset (fun _ => true) 0 [] "models" "yolov10n.onnx").2.2 =
      ["https://example-cdn.com/models/yolov10n.onnx"] ∧
    cleanupOldAttempts 360000
      [("models:yolov10n.onnx",
        ⟨"https://example-cdn.com/models/yolov10n.onnx", "CDN", true, 0⟩)] = [] ∧
    (loadAsset (fun _ => true) 360000 [] "models" "yolov10n.onnx").2.2 =
      ["https://example-cdn.com/models/yolov10n.onnx"] := by
  refine ⟨?_, ?_, ?_, ?_⟩ <;> decide

/-- C5 amended: while a successful attempt for an asset key is still on
record, every later loadAsset call for that key returns the recorded URL
with no network attempt; however the periodic cleanup deletes every
attempt, successful or not, whose age exceeds maxCacheAge (five minutes),
after which the next call re-attempts the fetch. -/
theorem claim_success_durable_amended :
    (∀ (env : String → Bool) (now : Nat) (attempts : List (String × AMAttempt))
        (assetType filename : String) (a : AMAttempt),
      attempts.lookup (assetType ++ ":" ++ filename) = some a → a.success = true →
      loadAsset env now attempts assetType filename = (attempts, some a.url, [])) ∧
    (∀ (now : Nat) (attempts : List (String × AMAttempt)) (p : String × AMAttempt),
      p ∈ cleanupOldAttempts now attempts ↔
        (p ∈ attempts ∧ now - p.2.timestamp ≤ maxCacheAge)) := by
  constructor
  · intro env now attempts assetType filename a hl hs
    unfold loadAsset
    simp only [hl, hs, if_true]
  · intro now attempts p
    simp [cleanupOldAttempts, Nat.not_lt]

/-- Witness for C5 amended: a call finding a recorded success returns it
without a network attempt, and the cleanup keeps a fresh attempt. -/
theorem claim_success_durable_amended_witness :
    loadAsset (fun _ => false) 1 [("models:f", ⟨"u", "CDN", true, 0⟩)] "models" "f" =
      ([("models:f", ⟨"u", "CDN", true, 0⟩)], some "u", []) ∧
    ("models:f", (⟨"u", "CDN", true, 0⟩ : AMAttempt)) ∈
      cleanupOldAttempts 1 [("models:f", ⟨"u", "CDN", true, 0⟩)] :=
  ⟨claim_success_durable_amended.1 (fun _ => false) 1
      [("models:f", ⟨"u", "CDN", true, 0⟩)] "models" "f" ⟨"u", "CDN", true, 0⟩
      (by decide) rfl,
    (claim_success_durable_amended.2 1 [("models:f", ⟨"u", "CDN", true, 0⟩)]
      ("models:f", ⟨"u", "CDN", true, 0⟩)).mpr (by decide)⟩

/-- C10: local candidates are accepted without verification.  For any
network environment (in particular one in which the local file would not be
served), once the CDN candidate fails, loadAsset returns the local URL
immediately, records the attempt as successful, and its network log
contains only the CDN URL: no network or filesystem check ever touches the
local URL. -/
theorem claim_local_trusted (env : String → Bool) (now : Nat) (filename : String)
    (hcdn : env ("https://example-cdn.com/models/" ++ filename) = false) :
    loadAsset env now [] "models" filename =
      ([("models" ++ ":" ++ filename,
          ⟨"./models/" ++ filename, "Local", true, now⟩)],
        some ("./models/" ++ filename),
        ["https://example-cdn.com/models/" ++ filename]) := by
  have hne : ((cdnBaseUrl "models" ++ filename) == (localBaseUrl "models" ++ filename))
      = false := by
    rw [beq_eq_false_iff_ne]
    intro he
    have hlen := congrArg (fun s : String => s.data.length) he
    simp only [String.data_append, List.length_append] at hlen
    rw [show ((cdnBaseUrl "models").data.length = 31) from by decide,
      show ((localBaseUrl "models").data.length = 9) from by decide] at hlen
    omega
  have hurls : getAssetUrls "models" filename =
      ["https://example-cdn.com/models/" ++ filename, "./models/" ++ filename] := by
    unfold getAssetUrls
    rw [if_neg (by simp_all)]
    exact rfl
  have hlocal : strIsPrefix "./" ("./models/" ++ filename) = true := by
    have : ("./models/" ++ filename).data = '.' :: '/' :: ("models/" ++ filename).data :=
      rfl
    simp [strIsPrefix, this, List.isPrefixOf]
  have hremote : strIsPrefix "./" ("https://example-cdn.com/models/" ++ filename)
      = false := by
    have : ("https://example-cdn.com/models/" ++ filename).data =
        'h' :: ("ttps://example-cdn.com/models/" ++ filename).data := rfl
    simp [strIsPrefix, this, List.isPrefixOf]
  have hremote2 : strIsPrefix "/" ("https://example-cdn.com/models/" ++ filename)
      = false := by
    have : ("https://example-cdn.com/models/" ++ filename).data =
        'h' :: ("ttps://example-cdn.com/models/" ++ filename).data := rfl
    simp [strIsPrefix, this, List.isPrefixOf]
  unfold loadAsset
  simp only [List.lookup, hurls]
  unfold loadAssetLoop
  simp only [hremote, hremote2, Bool.or_self, Bool.false_eq_true, if_false, hcdn]
  unfold loadAssetLoop
  simp only [hlocal, Bool.true_or, if_true]
  simp [setAttempt]

/-- Witness for C10: with a network in which every fetch fails (so the
local file cannot be served either), loading yolov10n.onnx succeeds with
the local URL, records success, and never probed the local URL. -/
theorem claim_local_trusted_witness :
    loadAsset (fun _ => false) 7 [] "models" "yolov10n.onnx" =
      ([("models" ++ ":" ++ "yolov10n.onnx",
          ⟨"./models/" ++ "yolov10n.onnx", "Local", true, 7⟩)],
        some ("./models/" ++ "yolov10n.onnx"),
        ["https://example-cdn.com/models/" ++ "yolov10n.onnx"]) :=
  claim_local_trusted (fun _ => false) 7 "yolov10n.onnx" rfl

/-- C6: Size tolerance policy of verifyAssetAvailabilityLegacy.  A remote
size about one percent over the expectation (9,400,000 against 9,309,375)
is accepted; a remote size about 46 percent under (5,000,000) is rejected
with a thrown failure, while the same mismatch on a local candidate only
warns and continues; in general, for a supplied positive expectation and a
positive observed size, a non-local candidate fails exactly when the
relative difference exceeds the 10 percent default tolerance, and a local
candidate never fails the size check. -/
theorem claim_size_tolerance :
    verifyLegacySizeCheck "https://example-cdn.com/models/yolov10n.onnx"
      (some 9309375) none 9400000 = Except.ok () ∧
    (∃ m, verifyLegacySizeCheck "https://example-cdn.com/models/yolov10n.onnx"
      (some 9309375) none 5000000 = Except.error m) ∧
    verifyLegacySizeCheck "./models/yolov10n.onnx" (some 9309375) none 5000000 =
      Except.ok () ∧
    (∀ (url : String) (e c : Nat), 0 < e → 0 < c → strIsPrefix "./" url = false →
      ((∃ m, verifyLegacySizeCheck url (some e) none c = Except.error m) ↔
        (1 : ℚ) / 10 < |(c : ℚ) - (e : ℚ)| / (e : ℚ))) ∧
    (∀ (url : String) (e c : Nat), strIsPrefix "./" url = true →
      verifyLegacySizeCheck url (some e) none c = Except.ok ()) := by
  refine ⟨?_, ?_, ?_, ?_, ?_⟩
  · norm_num [verifyLegacySizeCheck,
      show strIsPrefix "./" "https://example-cdn.com/models/yolov10n.onnx" = false from
        by decide]
  · refine ⟨"Size mismatch: expected ~" ++ toString (9309375 : Nat) ++ ", got "
      ++ toString (5000000 : Nat), ?_⟩
    norm_num [verifyLegacySizeCheck,
      show strIsPrefix "./" "https://example-cdn.com/models/yolov10n.onnx" = false from
        by decide]
  · norm_num [verifyLegacySizeCheck,
      show strIsPrefix "./" "./models/yolov10n.onnx" = true from by decide]
  · intro url e c he hc hp
    by_cases hd : (1 : ℚ) / 10 < |(c : ℚ) - (e : ℚ)| / (e : ℚ)
    · have hd2 : (10 : ℚ)⁻¹ < |(c : ℚ) - (e : ℚ)| / (e : ℚ) := by rwa [one_div] at hd
      simp [verifyLegacySizeCheck, Nat.pos_iff_ne_zero.mp he, hc, hd2, hp, one_div]
    · have hd2 : ¬(10 : ℚ)⁻¹ < |(c : ℚ) - (e : ℚ)| / (e : ℚ) := by rwa [one_div] at hd
      simp [verifyLegacySizeCheck, Nat.pos_iff_ne_zero.mp he, hc, hd2, hp, one_div]
  · intro url e c hp
    simp [verifyLegacySizeCheck, hp]

/-- Witness for C6: a remote observed size twice the expectation is
rejected. -/
theorem claim_size_tolerance_witness :
    ∃ m, verifyLegacySizeCheck "https://x" (some 100) none 200 = Except.error m :=
  (claim_size_tolerance.2.2.2.1 "https://x" 100 200 (by norm_num) (by norm_num)
    (by decide)).mpr (by norm_num)

/-- The smallest model variant by expected size is the first row
(yolov10n.onnx, 9,309,375 bytes). -/
theorem findSmallest_eq_zero : findSmallestAvailableModel = 0 := by decide

/-- C7: Model-tier fallback occurs at most once and the call always
settles.  From a fresh manager at any configured variant index: when every
load fails, loadCurrentModel terminates with the fatal error, having
attempted the current variant and then (when it is not already the
smallest) the smallest variant exactly once, with the fallback flag
consumed; when the current variant fails but the smallest succeeds, the
call settles successfully on the smallest variant after exactly one
substitution. -/
theorem claim_model_tier_fallback (env : String → Bool) (i : Nat) (hi : i < 4) :
    ((∀ f, env f = false) →
      loadCurrentModel env ⟨i, false, []⟩ =
        (⟨i, true, []⟩, Except.error fatalModelError,
          if i = 0 then [(getModelCfg 0).filename]
          else [(getModelCfg i).filename, (getModelCfg 0).filename])) ∧
    (env "yolov10n.onnx" = true → env (getModelCfg i).filename = false → i ≠ 0 →
      loadCurrentModel env ⟨i, false, []⟩ =
        (⟨0, true, ["yolov10n.onnx"]⟩, Except.ok "yolov10n.onnx",
          [(getModelCfg i).filename, "yolov10n.onnx"])) := by
  interval_cases i <;> constructor <;> intro h1 <;> try intro h2 h3
  all_goals
    simp [loadCurrentModel, attemptFallbackLoading, getModelCfg, RES_TO_MODEL,
      findSmallest_eq_zero, fatalModelError, h1]
  all_goals simp_all [getModelCfg, RES_TO_MODEL]

/-- Witness for C7: with every load failing, a manager at variant index 2
settles with the fatal error after attempting the current variant and the
smallest variant once each. -/
theorem claim_model_tier_fallback_witness :
    loadCurrentModel (fun _ => false) ⟨2, false, []⟩ =
      (⟨2, true, []⟩, Except.error fatalModelError,
        if (2 : Nat) = 0 then [(getModelCfg 0).filename]
        else [(getModelCfg 2).filename, (getModelCfg 0).filename]) :=
  (claim_model_tier_fallback (fun _ => false) 2 (by decide)).1 (fun _ => rfl)

/-- C9 counterexample: activation does not delete every prior-generation
cache.  With caches of generations v1.1.0 and v1.2.0 present, the cleanup
deletes the old static and models caches but keeps runtime-v1.1.0, a cache
of a prior generation. -/
theorem claim_cache_generation_counterexample :
    activateCleanup ["static-v1.1.0", "models-v1.1.0", "runtime-v1.1.0",
        "static-v1.2.0", "models-v1.2.0", "runtime-v1.2.0"] =
      ["runtime-v1.1.0", "static-v1.2.0", "models-v1.2.0", "runtime-v1.2.0"] ∧
    "runtime-v1.1.0" ∈ activateCleanup ["static-v1.1.0", "models-v1.1.0",
      "runtime-v1.1.0", "static-v1.2.0", "models-v1.2.0", "runtime-v1.2.0"] := by
  constructor <;> decide

/-- C9 amended: activation reconciliation deletes exactly the static- and
models- caches of other generations (prior-generation runtime- caches
survive), and a model-request hit can only come from the current-generation
models cache or from a fresh network response, never from a cache of
another generation. -/
theorem claim_cache_generation_amended :
    (∀ (names : List String) (n : String),
      n ∈ activateCleanup names ↔
        (n ∈ names ∧ (hasSub "static-" n = true → n = STATIC_CACHE) ∧
          (hasSub "models-" n = true → n = MODELS_CACHE))) ∧
    (∀ (storage : List (String × List (String × String)))
        (net : String → Option String) (url body : String)
        (st2 : List (String × List (String × String))),
      handleModelRequest storage net url = (some body, st2) →
        cacheMatch storage MODELS_CACHE url = some body ∨ net url = some body) := by
  constructor
  · intro names n
    simp only [activateCleanup, List.mem_filter, Bool.and_eq_true,
      Bool.not_eq_true', Bool.and_eq_false_iff, bne_eq_false_iff_eq,
      Bool.not_eq_true]
    constructor
    · rintro ⟨hm, h1, h2⟩
      refine ⟨hm, ?_, ?_⟩
      · intro hs
        rcases h1 with h1 | h1
        · rw [hs] at h1; cases h1
        · exact h1
      · intro hs
        rcases h2 with h2 | h2
        · rw [hs] at h2; cases h2
        · exact h2
    · rintro ⟨hm, h1, h2⟩
      refine ⟨hm, ?_, ?_⟩
      · by_cases hs : hasSub "static-" n = true
        · exact Or.inr (h1 hs)
        · exact Or.inl (Bool.not_eq_true _ ▸ hs)
      · by_cases hs : hasSub "models-" n = true
        · exact Or.inr (h2 hs)
        · exact Or.inl (Bool.not_eq_true _ ▸ hs)
  · intro storage net url body st2 h
    unfold handleModelRequest at h
    split at h
    · simp_all
    · split at h
      · simp_all
      · simp_all

/-- Witness for C9 amended: a hit served for a URL present in the current
models cache comes from that cache or the network. -/
theorem claim_cache_generation_amended_witness :
    cacheMatch [(MODELS_CACHE, [("u", "b")])] MODELS_CACHE "u" = some "b" ∨
      (fun _ : String => (none : Option String)) "u" = some "b" :=
  claim_cache_generation_amended.2 [(MODELS_CACHE, [("u", "b")])]
    (fun _ => none) "u" "b" [(MODELS_CACHE, [("u", "b")])] (by decide)

end RoomScanner
